import Mathlib

/-!
Verification of the Itinerary Extraction & Response-Budgeting Engine of
walk-in-kyoto-mcp against its natural-language specification.

The development shallowly embeds the TypeScript source:

* `TokenLimiter` (src/utils/TokenLimiter.ts): `applyLimit`, `calculateTokens`,
  `truncateData`, `truncateArray`, `truncateObject` over a JSON value model.
  The token count in the source is `encoder.encode(JSON.stringify(data)).length`
  with a cl100k_base encoder obtained from the external `tiktoken` package;
  the encoder is not part of this repository, so every definition is
  parameterised by the token-counting function `enc : String → Nat` applied to
  the serialized JSON text.  Concrete instances use `byteTokens` (see below).
* `RouteHtmlParser` (src/utils/RouteHtmlParser.ts): `parseRawRouteData`
  (packed `$`-delimited segment decoding), `formatTimeWithDateCrossing`
  (day-rollover), `extractRoutes` (HTML/raw reconciliation) and `parseHtml`
  (no-results phrase detection).  DOM access through cheerio is external; it
  is abstracted by passing the parser the body text and the two decoders'
  outputs, exactly the data the source reads off the DOM.
* `RouteHtmlFetcher.searchNearStations` (src/utils/RouteHtmlFetcher.ts,
  the current version, whose output loop reads `if (station.name)`):
  nearest-stop ranking with the appended nearest rail station.
-/

/-- JSON values as produced by the route-search services: `JSON.stringify`
serialisable data.  Numbers are integers (all numeric fields of the payloads
are integer minutes/yen/counts). -/
inductive Json where
  | null : Json
  | bool : Bool → Json
  | num : Int → Json
  | str : String → Json
  | arr : List Json → Json
  | obj : List (String × Json) → Json

namespace Json

/-- `JSON.stringify` escaping of one character inside a string literal. -/
def escapeChar (c : Char) : String :=
  if c = '\x22' then "\\\x22"
  else if c = '\\' then "\\\\"
  else if c = '\n' then "\\n"
  else if c = '\t' then "\\t"
  else if c = '\r' then "\\r"
  else String.singleton c

/-- `JSON.stringify` rendering of a string literal (quotes plus escapes). -/
def quote (s : String) : String :=
  "\x22" ++ String.join (s.data.map escapeChar) ++ "\x22"

mutual

/-- `JSON.stringify(data)`: compact serialisation, no added whitespace,
fields and elements in order. -/
def stringify : Json → String
  | .null => "null"
  | .bool true => "true"
  | .bool false => "false"
  | .num n => toString n
  | .str s => quote s
  | .arr xs => "[" ++ stringifyList xs ++ "]"
  | .obj fs => "\x7b" ++ stringifyFields fs ++ "\x7d"

/-- Comma-separated serialisation of array elements. -/
def stringifyList : List Json → String
  | [] => ""
  | [x] => stringify x
  | x :: y :: xs => stringify x ++ "," ++ stringifyList (y :: xs)

/-- Comma-separated serialisation of object fields (`"key":value`). -/
def stringifyFields : List (String × Json) → String
  | [] => ""
  | [(k, v)] => quote k ++ ":" ++ stringify v
  | (k, v) :: e :: fs => quote k ++ ":" ++ stringify v ++ "," ++ stringifyFields (e :: fs)

end

end Json

/-- UTF-8 byte length of a string. -/
def byteLen (s : String) : Nat := (s.data.map Char.utf8Size).sum

/-- Modelled from the spec: the serialized token count is produced by "a
tokenizer matching the cl100k-style byte-pair encoding" living in the external
`tiktoken` package, which is not part of this repository.  `byteTokens` is the
degenerate byte-pair encoding with an empty merge list: every UTF-8 byte is one
token.  It is the concrete instance used for scenario evaluations,
counterexamples and witnesses; theorems quantified over `enc` cover the real
cl100k encoder as well. -/
def byteTokens (s : String) : Nat := byteLen s

namespace TokenLimiter

/-- `calculateTokens(data)`: serialize with `JSON.stringify` and count tokens
(`enc` stands for `this.encoder.encode(·).length`). -/
def calculateTokens (enc : String → Nat) (data : Json) : Nat :=
  enc (Json.stringify data)

/-- The binary-search loop of `truncateArray` (`while (left <= right)`).
`fuel` is an upper bound on the remaining iterations; each iteration shrinks
`right + 1 - left` by at least one, so the initial fuel `array.length + 1`
is never exhausted (the loop starts with `left = 1`, `right = array.length`). -/
def truncateArrayGo (enc : String → Nat) (array : List Json) (maxTokens : Nat) :
    Nat → Nat → Nat → List Json → List Json
  | 0, _, _, best => best
  | fuel + 1, left, right, best =>
    if left ≤ right then
      let mid := (left + right) / 2
      let truncated := array.take mid
      if calculateTokens enc (.arr truncated) ≤ maxTokens then
        truncateArrayGo enc array maxTokens fuel (mid + 1) right truncated
      else
        truncateArrayGo enc array maxTokens fuel left (mid - 1) best
    else best

/-- `truncateArray(array, maxTokens)` (the current version of the source,
which pre-checks the empty array and the single-element prefix and keeps at
least one element whenever one fits). -/
def truncateArray (enc : String → Nat) (array : List Json) (maxTokens : Nat) :
    List Json :=
  match array with
  | [] => []
  | a0 :: _ =>
    if calculateTokens enc (.arr []) > maxTokens then []
    else if calculateTokens enc (.arr [a0]) > maxTokens then []
    else truncateArrayGo enc array maxTokens (array.length + 1) 1 array.length [a0]

/-- The field loop of `truncateObject`: walk `Object.entries(obj)` in order,
accumulating admitted fields in `result`.  Array-valued fields are truncated
against the remaining budget (admitted as `[]` when even the empty-array
baseline overflows, and via the conservative 80% retry when the rebuilt object
still overflows); a non-array field that overflows stops the loop (`break`).
`Math.floor(remaining * 0.8)` is `remaining * 4 / 5` on naturals. -/
def truncateObjectGo (enc : String → Nat) (maxTokens : Nat) :
    List (String × Json) → List (String × Json) → List (String × Json)
  | result, [] => result
  | result, (key, value) :: rest =>
    match value with
    | .arr elems =>
      let baselineTokens := calculateTokens enc (.obj (result ++ [(key, .arr [])]))
      if baselineTokens > maxTokens then
        truncateObjectGo enc maxTokens (result ++ [(key, .arr [])]) rest
      else
        let remaining := maxTokens - baselineTokens
        let truncatedArray := truncateArray enc elems remaining
        if calculateTokens enc (.obj (result ++ [(key, .arr truncatedArray)])) ≤ maxTokens then
          truncateObjectGo enc maxTokens (result ++ [(key, .arr truncatedArray)]) rest
        else
          let conservativeTokens := remaining * 4 / 5
          truncateObjectGo enc maxTokens
            (result ++ [(key, .arr (truncateArray enc elems conservativeTokens))]) rest
    | _ =>
      if calculateTokens enc (.obj (result ++ [(key, value)])) ≤ maxTokens then
        truncateObjectGo enc maxTokens (result ++ [(key, value)]) rest
      else
        result

/-- `truncateObject(obj, maxTokens)`. -/
def truncateObject (enc : String → Nat) (fields : List (String × Json))
    (maxTokens : Nat) : List (String × Json) :=
  truncateObjectGo enc maxTokens [] fields

/-- `truncateData(data, maxTokens)`: arrays and objects are truncated,
primitives are returned unchanged. -/
def truncateData (enc : String → Nat) (data : Json) (maxTokens : Nat) : Json :=
  match data with
  | .arr xs => .arr (truncateArray enc xs maxTokens)
  | .obj fs => .obj (truncateObject enc fs maxTokens)
  | d => d

/-- `TokenLimitResult<T>`: payload plus truncation flag. -/
structure TokenLimitResult where
  data : Json
  truncated : Bool

/-- `applyLimit(data, maxTokens)`: return the data unchanged when its token
count is within the limit, otherwise truncate and flag. -/
def applyLimit (enc : String → Nat) (data : Json) (maxTokens : Nat) :
    TokenLimitResult :=
  if calculateTokens enc data ≤ maxTokens then
    { data := data, truncated := false }
  else
    { data := truncateData enc data maxTokens, truncated := true }

end TokenLimiter

/-! ## Small JavaScript-semantics helpers used by the parser embedding -/

/-- `text.split(sep)` on a single-character separator, building the pieces
right-to-left over the character list (keeps empty pieces, like JS). -/
def splitOnCharAux (c : Char) : List Char → List (List Char)
  | [] => [[]]
  | ch :: rest =>
    match splitOnCharAux c rest with
    | [] => [[]]
    | cur :: parts => if ch = c then [] :: cur :: parts else (ch :: cur) :: parts

/-- `s.split(c)` for a one-character separator (JS `String.prototype.split`). -/
def jsSplit (s : String) (c : Char) : List String :=
  (splitOnCharAux c s.data).map String.mk

/-- Leading decimal-digit prefix value, `none` when there is no digit
(JS `parseInt` yielding `NaN`). -/
def digitsPrefixVal (cs : List Char) : Option Nat :=
  match cs.takeWhile Char.isDigit with
  | [] => none
  | ds => some (ds.foldl (fun n c => n * 10 + (c.toNat - 48)) 0)

/-- JS `parseInt(s)` (radix 10): skip leading whitespace, optional sign,
longest digit prefix; `none` models `NaN`. -/
def jsParseInt (s : String) : Option Int :=
  match s.data.dropWhile (fun c => c = ' ' ∨ c = '\t' ∨ c = '\n' ∨ c = '\r') with
  | '-' :: rest => (digitsPrefixVal rest).map (fun n => -(n : Int))
  | '+' :: rest => (digitsPrefixVal rest).map Int.ofNat
  | rest => (digitsPrefixVal rest).map Int.ofNat

/-- `parseInt(s) || 0`: `NaN` (and `-0`) collapse to `0`. -/
def parseIntOrZero (s : String) : Int := (jsParseInt s).getD 0

/-- Does `text` start with `pat`? -/
def startsWithList : List Char → List Char → Bool
  | [], _ => true
  | _ :: _, [] => false
  | p :: ps, t :: ts => p == t && startsWithList ps ts

/-- Does `pat` occur anywhere in `text`? -/
def hasInfixList (pat : List Char) : List Char → Bool
  | [] => pat.isEmpty
  | c :: rest => startsWithList pat (c :: rest) || hasInfixList pat rest

/-- JS `s.includes(sub)`. -/
def jsIncludes (s sub : String) : Bool := hasInfixList sub.data s.data

/-- JS `slice(0, -1)`: the string without its last character. -/
def jsSliceDropLast (s : String) : String := String.mk s.data.dropLast

/-! ## Route data model (src/types: RouteLeg, Route, RouteSearchResponse) -/

/-- A resolved coordinate pair (`StationCoordinateResolver.resolveCoordinates`
result).  The resolver itself reads the preloaded reference table; the
decoders only consume it through a lookup function, so the embedding
parameterises over `resolve : String → Option Coords`. -/
structure Coords where
  lat : ℚ
  lng : ℚ

/-- `RouteLeg`.  `from`/`to` of the source are `fromName`/`toName` here
(`from` is a Lean keyword); modes are the source's string tags
`"bus" | "train" | "walk"`. -/
structure RouteLeg where
  mode : String
  line : Option String := none
  fromName : Option String := none
  toName : Option String := none
  from_lat : Option ℚ := none
  from_lng : Option ℚ := none
  to_lat : Option ℚ := none
  to_lng : Option ℚ := none
  depart_time : Option String := none
  arrive_time : Option String := none
  duration_min : Int := 0
  stops : Option Int := none
  fare_jpy : Option Int := none
  distance_km : Option ℚ := none

/-- `RouteSummary`. -/
structure RouteSummary where
  depart : String
  arrive : String
  duration_min : Int
  transfers : Int
  fare_jpy : Int

/-- `Route`. -/
structure Route where
  summary : RouteSummary
  legs : List RouteLeg

/-- `RouteSearchResponse`. -/
structure RouteSearchResponse where
  routes : List Route
  truncated : Bool

namespace RouteHtmlParser

/-! ## parseRawRouteData (packed `$`-delimited segment decoding) -/

/-- The forward lookahead of the bus/train branch: starting at `j = i + 10`,
walk until a transit marker (`walk`/`bus`/`train`, giving up) or a place
marker (`busstop`/`station`/`spot`, returning the following token). -/
def lookAheadName : List String → String
  | [] => ""
  | s :: rest =>
    if s = "walk" ∨ s = "bus" ∨ s = "train" then ""
    else if s = "busstop" ∨ s = "station" ∨ s = "spot" then (rest.head?).getD ""
    else lookAheadName rest

/-- Mutable state of the `while (i < segments.length)` scan of
`parseRawRouteData`. -/
structure ScanState where
  currentName : String
  legs : List RouteLeg
  totalFare : Int
  totalDuration : Int
  transfers : Int

/-- One step per fuel unit of the `parseRawRouteData` scan.  The loop index
`i` advances by 4 (place marker), 10 (bus/train), 3 (walk) or 1; the embedding
consumes the corresponding suffix of the token list.  Each step consumes at
least one token, so fuel `segments.length + 1` is never exhausted.
`duration2 = parseInt(segments[i+5]) || 0` is computed and never used in the
source and is omitted.  Out-of-range reads model JS `undefined` via
`(·.get? k).getD ""` (and `parseInt(undefined) || 0 = 0`). -/
def scanGo (resolve : String → Option Coords) :
    Nat → List String → ScanState → ScanState
  | 0, _, st => st
  | _ + 1, [], st => st
  | fuel + 1, seg :: rest, st =>
    if seg = "busstop" ∨ seg = "station" ∨ seg = "spot" then
      scanGo resolve fuel (rest.drop 3) { st with currentName := (rest.head?).getD "" }
    else if seg = "bus" ∨ seg = "train" then
      let line := (rest.head?).getD ""
      let fare : Int := 0
      let duration1 := parseIntOrZero ((rest.get? 3).getD "")
      let stops := parseIntOrZero ((rest.get? 7).getD "")
      let toName := lookAheadName (rest.drop 9)
      let fromCoords := resolve st.currentName
      let toCoords := resolve toName
      let leg : RouteLeg :=
        { mode := seg
          line := some line
          fromName := some st.currentName
          toName := some toName
          from_lat := fromCoords.map Coords.lat
          from_lng := fromCoords.map Coords.lng
          to_lat := toCoords.map Coords.lat
          to_lng := toCoords.map Coords.lng
          duration_min := duration1.fdiv 60
          stops := some stops
          fare_jpy := some fare }
      scanGo resolve fuel (rest.drop 9)
        { st with
          legs := st.legs ++ [leg]
          totalFare := st.totalFare + fare
          totalDuration := st.totalDuration + leg.duration_min
          transfers := if st.legs.length + 1 > 1 then st.transfers + 1 else st.transfers }
    else if seg = "walk" then
      let distance := parseIntOrZero ((rest.head?).getD "")
      let duration := parseIntOrZero ((rest.get? 1).getD "")
      let leg : RouteLeg :=
        { mode := "walk"
          duration_min := duration.fdiv 60
          distance_km := some ((distance : ℚ) / 1000) }
      scanGo resolve fuel (rest.drop 2)
        { st with
          legs := st.legs ++ [leg]
          totalDuration := st.totalDuration + leg.duration_min }
    else
      scanGo resolve fuel rest st

/-- The legs (and aggregates) produced by scanning a token list from the
initial state. -/
def scanSegments (resolve : String → Option Coords) (segments : List String) :
    ScanState :=
  scanGo resolve (segments.length + 1) segments
    { currentName := "", legs := [], totalFare := 0, totalDuration := 0, transfers := 0 }

/-- `parseRawRouteData(rawData, language)`: split on `$`; fewer than 10 tokens
or an empty leg list yield `null` (not-decodable); otherwise a `Route` with
empty depart/arrive and aggregated totals. -/
def parseRawRouteData (resolve : String → Option Coords) (rawData : String) :
    Option Route :=
  let segments := jsSplit rawData '$'
  if segments.length < 10 then none
  else
    let st := scanSegments resolve segments
    if st.legs.isEmpty then none
    else some
      { summary :=
          { depart := ""
            arrive := ""
            duration_min := st.totalDuration
            transfers := st.transfers
            fare_jpy := st.totalFare }
        legs := st.legs }

end RouteHtmlParser

namespace RouteHtmlParser

/-! ## Day-rollover time formatting (formatTimeWithDateCrossing)

The source works on strings: `timeStr` is matched by `/(\d{2}):(\d{2})/` and
`previousTime` by `/(\d{4})-(\d{2})-(\d{2})T(\d{2}):(\d{2})/`; the embedding
takes the matched groups as structured values (`HM` for an hour/minute pair,
`CivilDate` for a calendar day).  The strings the parser feeds back as
`previousTime` are exactly its own `YYYY-MM-DDTHH:MM` outputs, so the regex
groups are the rendered fields whenever the year is four digits and the other
fields two. -/

/-- An hour/minute pair, the two groups of the `HH:MM` regex. -/
structure HM where
  hour : Nat
  minute : Nat

/-- A calendar day (as held in a JS `Date` at midnight local time). -/
structure CivilDate where
  year : Nat
  month : Nat
  day : Nat

/-- Gregorian leap year (JS `Date` semantics). -/
def isLeapYear (y : Nat) : Bool := y % 4 = 0 && (y % 100 ≠ 0 || y % 400 = 0)

/-- Days in a month (month is 1-based). -/
def daysInMonth (y m : Nat) : Nat :=
  if m = 2 then (if isLeapYear y then 29 else 28)
  else if m = 4 ∨ m = 6 ∨ m = 9 ∨ m = 11 then 30
  else 31

/-- The next calendar day: JS `date.setDate(date.getDate() + 1)` on a valid
date. -/
def nextDay (d : CivilDate) : CivilDate :=
  if d.day < daysInMonth d.year d.month then ⟨d.year, d.month, d.day + 1⟩
  else if d.month < 12 then ⟨d.year, d.month + 1, 1⟩
  else ⟨d.year + 1, 1, 1⟩

/-- `String(n).padStart(2, '0')`. -/
def pad2 (n : Nat) : String := if n < 10 then "0" ++ toString n else toString n

/-- The `${year}-${month}-${day}T${HH}:${MM}` template of
`formatTimeWithDateCrossing` (year unpadded, month/day padded, time taken
from the regex groups). -/
def renderDateTime (d : CivilDate) (t : HM) : String :=
  toString d.year ++ "-" ++ pad2 d.month ++ "-" ++ pad2 d.day ++ "T" ++
    pad2 t.hour ++ ":" ++ pad2 t.minute

/-- `formatTimeWithDateCrossing(timeStr, baseDate, previousTime)`.  With no
previous time (or one the regex rejects) the base date is used unchanged;
otherwise the previous timestamp's date is kept, advanced by one day when
either the late-night rule (hour in 0..5 after a previous hour ≥ 18) or the
more-than-60-minutes-regression rule fires.  `hours >= 0` of the source is
vacuous on `Nat`. -/
def formatTimeWithDateCrossing (t : HM) (baseDate : CivilDate)
    (previous : Option (CivilDate × HM)) : String :=
  match previous with
  | none => renderDateTime baseDate t
  | some (prevDate, prev) =>
    if t.hour ≤ 5 ∧ 18 ≤ prev.hour then
      renderDateTime (nextDay prevDate) t
    else
      if t.hour * 60 + t.minute < prev.hour * 60 + prev.minute ∧
          60 < (prev.hour * 60 + prev.minute) - (t.hour * 60 + t.minute) then
        renderDateTime (nextDay prevDate) t
      else
        renderDateTime prevDate t

/-- The headline-time handling of `parseDetailedRoute`: the depart time is
anchored to the base date with no previous time; the arrive time's previous
time is the rendered depart timestamp, i.e. the base date with the depart
clock time. -/
def parseDetailedRouteTimes (dep arr : HM) (base : CivilDate) : String × String :=
  (formatTimeWithDateCrossing dep base none,
   formatTimeWithDateCrossing arr base (some (base, dep)))

/-- Modelled from the spec: the day-rollover rule as the specification words
it — "if T's hour is in [0,5] and P's hour is ≥ 18, advance T's date by one
day relative to P's date; otherwise, if treating T as same-day as P would make
T earlier than P by more than 60 minutes, advance one day; otherwise T
inherits P's date".  Used only to compare the source's decision against the
claim. -/
def specDayRollover (prev t : HM) : Prop :=
  (t.hour ≤ 5 ∧ 18 ≤ prev.hour) ∨
    (t.hour * 60 + t.minute < prev.hour * 60 + prev.minute ∧
      60 < (prev.hour * 60 + prev.minute) - (t.hour * 60 + t.minute))

instance (prev t : HM) : Decidable (specDayRollover prev t) := by
  unfold specDayRollover
  infer_instance

/-! ## extractRoutes / parseHtml (HTML-raw reconciliation) -/

/-- Does any HTML-derived leg carry a positive fare
(`legs.some(leg => leg.fare_jpy && leg.fare_jpy > 0)`; `0` is falsy)? -/
def htmlHasFareInfo (legs : List RouteLeg) : Bool :=
  legs.any fun leg =>
    match leg.fare_jpy with
    | some f => decide (0 < f)
    | none => false

/-- JS `a || b` on optional numbers: `a` when present and non-zero,
otherwise `b` (`0` and `undefined` are falsy). -/
def jsOrQ (a b : Option ℚ) : Option ℚ :=
  match a with
  | some v => if v = 0 then b else some v
  | none => b

/-- The indexed map of `mergeLegsWithCoordinates`: pair HTML leg `i` with raw
leg `i` (`undefined` past the end) and backfill missing coordinates. -/
def backfillLegs : List RouteLeg → List RouteLeg → List RouteLeg
  | [], _ => []
  | h :: hs, rs =>
    { h with
      from_lat := jsOrQ h.from_lat (rs.head?.bind RouteLeg.from_lat)
      from_lng := jsOrQ h.from_lng (rs.head?.bind RouteLeg.from_lng)
      to_lat := jsOrQ h.to_lat (rs.head?.bind RouteLeg.to_lat)
      to_lng := jsOrQ h.to_lng (rs.head?.bind RouteLeg.to_lng) } ::
      backfillLegs hs (rs.drop 1)

/-- `mergeLegsWithCoordinates(htmlLegs, rawLegs)`. -/
def mergeLegsWithCoordinates (htmlLegs rawLegs : List RouteLeg) : List RouteLeg :=
  if htmlLegs.isEmpty then rawLegs else backfillLegs htmlLegs rawLegs

/-- The per-index merge of `extractRoutes`: timetable summary, packed-decoder
legs only when the HTML legs carry no fare information. -/
def mergeRoute (htmlRoute rawRoute : Route) : Route :=
  { summary :=
      { depart := htmlRoute.summary.depart
        arrive := htmlRoute.summary.arrive
        duration_min := htmlRoute.summary.duration_min
        transfers := htmlRoute.summary.transfers
        fare_jpy := htmlRoute.summary.fare_jpy }
    legs :=
      if htmlHasFareInfo htmlRoute.legs then htmlRoute.legs
      else mergeLegsWithCoordinates htmlRoute.legs rawRoute.legs }

/-- `extractRoutes($)`: when both decoders produced routes, merge position
`i` with position `i` for `i < min(htmlRoutes.length, rawRoutes.length)`
(`List.zipWith` is exactly that loop); otherwise pass the non-empty side
through. -/
def extractRoutes (htmlRoutes rawRoutes : List Route) : List Route :=
  if htmlRoutes.length > 0 ∧ rawRoutes.length > 0 then
    List.zipWith mergeRoute htmlRoutes rawRoutes
  else if htmlRoutes.length > 0 then htmlRoutes
  else if rawRoutes.length > 0 then rawRoutes
  else []

/-- The "no results" phrase set of `parseHtml`. -/
def noResultPhrases : List String :=
  ["該当する結果が見つかりませんでした", "検索結果がありません", "No results found",
    "not found", "見つかりません"]

/-- `hasErrorMessage`: some phrase occurs in the page body text. -/
def hasErrorMessage (bodyText : String) : Bool :=
  noResultPhrases.any fun msg => jsIncludes bodyText msg

/-- What `parseHtml` reads off the cheerio DOM: the body text and the outputs
of the two decoders (`extractRoutesFromHtml`, `extractRawRoutes`).  The DOM
library itself is external to the embedding. -/
structure PageModel where
  bodyText : String
  htmlRoutes : List Route
  rawRoutes : List Route

/-- `parseHtml(html, language)`: an error phrase in the body text yields zero
routes before any route extraction; otherwise the reconciled routes.
`truncated` is always false at this layer. -/
def parseHtml (page : PageModel) : RouteSearchResponse :=
  if hasErrorMessage page.bodyText then
    { routes := [], truncated := false }
  else
    { routes := extractRoutes page.htmlRoutes page.rawRoutes, truncated := false }

end RouteHtmlParser

namespace RouteHtmlFetcher

/-! ## searchNearStations (nearest-stop ranking)

Embeds the current `searchNearStations` of src/utils/RouteHtmlFetcher.ts (the
version whose output loop reads `if (station.name)`, including every ranked
station and the appended nearest rail station).  The master station table is
the `for (const stationName in this.master.station)` iteration, i.e. an
ordered list of name/info pairs; `SEARCH_NEAR_SPOTS_NUMBER || 10` is the
`nearSpotsNumber` argument. -/

/-- One entry of `this.master.station`. -/
structure StationInfo where
  lat : ℚ
  lng : ℚ
  ekidiv : String
  selectname : String

/-- `StationRanking`. -/
structure StationRanking where
  len : ℚ
  name : String
  lat : ℚ
  lng : ℚ
  ekidiv : String
  extra : Nat

/-- JS `Number.MAX_VALUE`, exactly `(2 - 2^-52) * 2^1023`. -/
def jsNumberMaxValue : ℚ := 2 ^ 1024 - 2 ^ 971

/-- `LAT_LNG_RATIO = 912.8816392747891 / 1109.4063947762538` as the exact
ratio of the two decimal literals. -/
def LAT_LNG_RATIO : ℚ := 9128816392747891 / 11094063947762538

/-- The empty ranking slot (`len: Number.MAX_VALUE, name: '', ekidiv: 'B',
extra: 1`). -/
def emptySlot : StationRanking :=
  { len := jsNumberMaxValue, name := "", lat := 0, lng := 0, ekidiv := "B", extra := 1 }

/-- The insert-and-shift of the ranking loop: find the first slot that is
empty or strictly farther, shift the tail right (dropping the last slot) and
place the entry there; leave the ranking unchanged when no slot qualifies. -/
def insertRanked : List StationRanking → StationRanking → List StationRanking
  | [], _ => []
  | r :: rest, e =>
    if r.name = "" ∨ e.len < r.len then e :: (r :: rest).dropLast
    else r :: insertRanked rest e

/-- The squared anisotropic distance of the scan
(`(lat - sinfo.lat)^2 + (lng - sinfo.lng)^2 * LAT_LNG_RATIO^2`), zero for the
exact self-match (`selectname === name && ekidiv === type`).
`lonLat` is `[lng, lat]` as in the source. -/
def stationLen (name ty : String) (lonLat : ℚ × ℚ) (sinfo : StationInfo) : ℚ :=
  if sinfo.selectname = name ∧ sinfo.ekidiv = ty then 0
  else (lonLat.2 - sinfo.lat) ^ 2 + (lonLat.1 - sinfo.lng) ^ 2 * LAT_LNG_RATIO ^ 2

/-- One station of the `for (const stationName in this.master.station)` scan:
rank it and update the nearest-rail record (`rMin`). -/
def scanStation (name ty : String) (lonLat : ℚ × ℚ)
    (st : List StationRanking × StationRanking) (p : String × StationInfo) :
    List StationRanking × StationRanking :=
  let sinfo := p.2
  let isExactMatch := sinfo.selectname = name ∧ sinfo.ekidiv = ty
  let len := stationLen name ty lonLat sinfo
  let entry : StationRanking :=
    { len := len, name := p.1, lat := sinfo.lat, lng := sinfo.lng,
      ekidiv := sinfo.ekidiv, extra := if isExactMatch then 0 else 1 }
  let ranking := insertRanked st.1 entry
  let rMin :=
    if sinfo.ekidiv = "R" ∧ len < st.2.len then
      { len := len, name := p.1, lat := sinfo.lat, lng := sinfo.lng,
        ekidiv := "R", extra := if isExactMatch then 0 else 1 }
    else st.2
  (ranking, rMin)

/-- The full station scan, from the initialised ranking and `rMin`. -/
def scanStations (name ty : String) (lonLat : ℚ × ℚ) (nearSpotsNumber : Nat)
    (stations : List (String × StationInfo)) :
    List StationRanking × StationRanking :=
  stations.foldl (scanStation name ty lonLat)
    (List.replicate nearSpotsNumber emptySlot,
      { len := jsNumberMaxValue, name := "", lat := 0, lng := 0,
        ekidiv := "R", extra := 1 })

/-- The ranking after the scan, with the nearest rail station appended when no
rail station made the ranking (`if (!hasRailStation && rMin.name)`). -/
def rankedWithRail (name ty : String) (lonLat : ℚ × ℚ) (nearSpotsNumber : Nat)
    (stations : List (String × StationInfo)) : List StationRanking :=
  let st := scanStations name ty lonLat nearSpotsNumber stations
  if ¬ st.1.any (fun r => r.ekidiv = "R") ∧ st.2.name ≠ "" then
    st.1 ++ [st.2]
  else st.1

/-- The clamped walking-time estimate
`Math.min(station.len === 0 ? 0 : Math.ceil(Math.sqrt(station.len) * 111.32 / 5.0), 15)`:
the least `n` with `n ≥ √len · 22.264` (equivalently `n² ≥ len · 22.264²`,
with `22.264² = 7745089 / 15625`), capped at 15.  The float square root is
modelled by the real one. -/
def clampedWalkTime (len : ℚ) : Nat :=
  if len = 0 then 0
  else ((List.range 16).find? fun n : Nat => decide (len * 7745089 / 15625 ≤ (n : ℚ) ^ 2)).getD 15

/-- The output loop: `name,minutes,` for every station with a non-empty name
(the current source includes all of them, `extra` unchecked). -/
def hintConcat : List StationRanking → String
  | [] => ""
  | st :: rest =>
    (if st.name ≠ "" then st.name ++ "," ++ toString (clampedWalkTime st.len) ++ ","
      else "") ++ hintConcat rest

/-- `searchNearStations(lonLat, name, type)`: scan, append the nearest rail
station if needed, render and drop the trailing comma (`slice(0, -1)`). -/
def searchNearStations (lonLat : ℚ × ℚ) (name ty : String)
    (nearSpotsNumber : Nat) (stations : List (String × StationInfo)) : String :=
  jsSliceDropLast (hintConcat (rankedWithRail name ty lonLat nearSpotsNumber stations))

end RouteHtmlFetcher

/-! ## Concrete sample inputs used by scenario theorems, counterexamples and
witnesses -/

/-- Number of entries under the `candidates` key of a payload. -/
def candidatesCount (j : Json) : Nat :=
  match j with
  | .obj fs =>
    match fs.lookup "candidates" with
    | some (.arr l) => l.length
    | _ => 0
  | _ => 0

/-- A `candidates` payload of five station-name strings (121 byte tokens). -/
def sampleCandidates : Json :=
  .obj [("candidates", .arr [.str "alpha-one-station", .str "beta-two-station",
    .str "gamma-three-station", .str "delta-four-station", .str "epsilon-five-station"])]

/-- Two long-keyed array fields of small numbers (43 byte tokens): each
element fits any budget ≥ 3 on its own, yet under budget 16 the rebuilt
object keeps both keys as empty arrays and still measures 33 tokens. -/
def sampleOverObject : Json :=
  .obj [("aaaaaaaaaa", .arr [.num 1, .num 2, .num 3]),
    ("bbbbbbbbbb", .arr [.num 4, .num 5, .num 6])]

/-- A three-string array (22 byte tokens); budget 15 truncates it to two
elements measuring exactly 15 tokens. -/
def sampleIdemArray : Json :=
  .arr [.str "aaaa", .str "bbbb", .str "cccc"]

/-- A payload for which a smaller budget keeps a larger result: under budget
15 the scalar field `s` is admitted and the three long-keyed array fields are
all retained as over-budget empty arrays (63 tokens); under budget 44 the
first array keeps its big second element and the scalar field then stops the
field loop (42 tokens). -/
def sampleMonoPayload : Json :=
  .obj [("A", .arr [.num 1, .str "zzzzzzzzzzzzzzzzzzzzzzzzzzzzzz"]), ("s", .num 5),
    ("KKKKKKKKKK", .arr [.num 1]), ("LLLLLLLLLL", .arr [.num 1]),
    ("MMMMMMMMMM", .arr [.num 1])]

/-- A one-leg bus route used as parseable content. -/
def sampleBusRoute : Route :=
  { summary := { depart := "2025-07-07T09:00", arrive := "2025-07-07T09:30",
                 duration_min := 30, transfers := 0, fare_jpy := 230 },
    legs := [{ mode := "bus", duration_min := 30, fare_jpy := some 230 }] }

/-- A one-leg walk route used as parseable content. -/
def sampleWalkRoute : Route :=
  { summary := { depart := "", arrive := "", duration_min := 5, transfers := 0,
                 fare_jpy := 0 },
    legs := [{ mode := "walk", duration_min := 5 }] }

/-- A page whose body text contains the Japanese no-results phrase while both
decoders would still produce a route. -/
def noResultsSamplePage : RouteHtmlParser.PageModel :=
  { bodyText := "ヘッダ 該当する結果が見つかりませんでした フッタ",
    htmlRoutes := [sampleBusRoute],
    rawRoutes := [sampleWalkRoute] }

/-- A two-stop master table: a bus stop at the query point and a rail station
1/100 degree of latitude away. -/
def sampleStations : List (String × RouteHtmlFetcher.StationInfo) :=
  [("BusA", { lat := 1, lng := 1, ekidiv := "B", selectname := "x" }),
   ("RailB", { lat := 1 + 1 / 100, lng := 1, ekidiv := "R", selectname := "y" })]

/-- `SubEntries s l`: `s` keeps a subsequence of the keys of `l` in order,
with each kept value replaced by one of at most the same serialized byte
length (the shape `truncateObject` produces: dropped fields, truncated array
values, unchanged scalars). -/
inductive SubEntries : List (String × Json) → List (String × Json) → Prop where
  | nil (l : List (String × Json)) : SubEntries [] l
  | skip (k : String) (v : Json) (s l : List (String × Json)) :
      SubEntries s l → SubEntries s ((k, v) :: l)
  | keep (k : String) (v' v : Json) (s l : List (String × Json)) :
      byteLen (Json.stringify v') ≤ byteLen (Json.stringify v) →
      SubEntries s l → SubEntries ((k, v') :: s) ((k, v) :: l)

/-! # Claim theorems -/

set_option maxRecDepth 100000

/-- C2: for every anchored previous timestamp P and raw time T, the decoder
advances T to the day after P's date exactly when (a) T's hour is in [0,5] and
P's hour is ≥ 18, or (b) same-day placement would put T more than 60 minutes
before P; otherwise T receives P's date.  Scenarios: 23:45 → 00:10 rolls to
the next day, 09:00 → 09:30 stays, and the panel "23:45発 →00:25着" with base
date 2025-07-07 departs 2025-07-07T23:45 and arrives 2025-07-08T00:25. -/
theorem dateCrossing_matches_spec_rule :
    (∀ (prevDate : RouteHtmlParser.CivilDate) (prev t : RouteHtmlParser.HM)
      (base : RouteHtmlParser.CivilDate),
      RouteHtmlParser.formatTimeWithDateCrossing t base (some (prevDate, prev)) =
        RouteHtmlParser.renderDateTime
          (if RouteHtmlParser.specDayRollover prev t then RouteHtmlParser.nextDay prevDate
            else prevDate) t) ∧
    RouteHtmlParser.formatTimeWithDateCrossing ⟨0, 10⟩ ⟨2025, 7, 7⟩
        (some (⟨2025, 7, 7⟩, ⟨23, 45⟩)) = "2025-07-08T00:10" ∧
    RouteHtmlParser.formatTimeWithDateCrossing ⟨9, 30⟩ ⟨2025, 7, 7⟩
        (some (⟨2025, 7, 7⟩, ⟨9, 0⟩)) = "2025-07-07T09:30" ∧
    RouteHtmlParser.parseDetailedRouteTimes ⟨23, 45⟩ ⟨0, 25⟩ ⟨2025, 7, 7⟩ =
      ("2025-07-07T23:45", "2025-07-08T00:25") := by
  refine ⟨?_, rfl, rfl, rfl⟩
  intro prevDate prev t base
  unfold RouteHtmlParser.formatTimeWithDateCrossing RouteHtmlParser.specDayRollover
  dsimp only
  by_cases h1 : t.hour ≤ 5 ∧ 18 ≤ prev.hour
  · rw [if_pos h1, if_pos (Or.inl h1)]
  · by_cases h2 : t.hour * 60 + t.minute < prev.hour * 60 + prev.minute ∧
        60 < prev.hour * 60 + prev.minute - (t.hour * 60 + t.minute)
    · rw [if_neg h1, if_pos h2, if_pos (Or.inr h2)]
    · rw [if_neg h1, if_neg h2, if_neg (by tauto)]

/-- C3: `applyLimit` returns the payload unchanged with `truncated = false`
whenever the full payload fits the budget, and reports `truncated = true`
whenever the original token count exceeds the budget (for any token
counter). -/
theorem applyLimit_flag_contract (enc : String → Nat) (x : Json) (N : Nat) :
    (TokenLimiter.calculateTokens enc x ≤ N →
      TokenLimiter.applyLimit enc x N = ⟨x, false⟩) ∧
    (N < TokenLimiter.calculateTokens enc x →
      (TokenLimiter.applyLimit enc x N).truncated = true) := by
  unfold TokenLimiter.applyLimit
  constructor
  · intro h
    rw [if_pos h]
  · intro h
    rw [if_neg (by omega)]

/-- Witness for `applyLimit_flag_contract` at the byte tokenizer: the
5-token number payload is returned unchanged under budget 10 and flagged as
truncated under budget 0. -/
theorem applyLimit_flag_contract_witness :
    TokenLimiter.applyLimit byteTokens (Json.num 12345) 10 = ⟨Json.num 12345, false⟩ ∧
    (TokenLimiter.applyLimit byteTokens (Json.num 12345) 0).truncated = true :=
  ⟨(applyLimit_flag_contract byteTokens (Json.num 12345) 10).1 (by decide),
    (applyLimit_flag_contract byteTokens (Json.num 12345) 0).2 (by decide)⟩

/-- C6: the packed-segment decoder is total on arbitrary strings (the
embedding is a total function), returns `none` exactly when the string splits
into fewer than 10 `$`-delimited tokens or the scan forms no legs, and
otherwise returns a route with at least one leg — for every coordinate
resolver. -/
theorem parseRawRouteData_fail_soft (resolve : String → Option Coords) (s : String) :
    (RouteHtmlParser.parseRawRouteData resolve s = none ↔
      (jsSplit s '$').length < 10 ∨
        (RouteHtmlParser.scanSegments resolve (jsSplit s '$')).legs = []) ∧
    (∀ r, RouteHtmlParser.parseRawRouteData resolve s = some r → r.legs ≠ []) := by
  unfold RouteHtmlParser.parseRawRouteData
  by_cases h10 : (jsSplit s '$').length < 10
  · simp [h10]
  · by_cases hlegs : (RouteHtmlParser.scanSegments resolve (jsSplit s '$')).legs = []
    · simp [h10, hlegs, List.isEmpty_iff]
    · simp only [if_neg h10]
      rw [if_neg (by simpa [List.isEmpty_iff] using hlegs)]
      constructor
      · simp [h10, hlegs]
      · intro r hr
        cases hr
        simpa using hlegs

/-- Witness for `parseRawRouteData_fail_soft`: the 10-token packed string
`busstop$A$$$walk$100$60$x$y$z` decodes to a route, and that route has at
least one leg. -/
theorem parseRawRouteData_fail_soft_witness :
    RouteHtmlParser.parseRawRouteData (fun _ => none) "busstop$A$$$walk$100$60$x$y$z" =
      some { summary := { depart := "", arrive := "", duration_min := 1, transfers := 0,
                          fare_jpy := 0 },
             legs := [{ mode := "walk", duration_min := 1,
                        distance_km := some (((parseIntOrZero "100" : Int) : ℚ) / 1000) }] } ∧
    ({ summary := { depart := "", arrive := "", duration_min := 1, transfers := 0,
                    fare_jpy := 0 },
       legs := [{ mode := "walk", duration_min := 1,
                  distance_km := some (((parseIntOrZero "100" : Int) : ℚ) / 1000) }] } :
        Route).legs ≠ [] := by
  constructor
  · rfl
  · exact (parseRawRouteData_fail_soft (fun _ => none) "busstop$A$$$walk$100$60$x$y$z").2 _
      (by rfl)

/-- C7: the packed string
`busstop$浄土寺$$$bus$市バス203系統$$0$1800$1800$h$0$16$id$busstop$四条烏丸$$$`
decodes (for every coordinate resolver) to a route with a single bus leg of
30 minutes (1800 seconds), 16 stops, line 市バス203系統, from 浄土寺 and — by
the forward lookahead — to 四条烏丸. -/
theorem parseRawRouteData_scenario (resolve : String → Option Coords) :
    ∃ r, RouteHtmlParser.parseRawRouteData resolve
        "busstop$浄土寺$$$bus$市バス203系統$$0$1800$1800$h$0$16$id$busstop$四条烏丸$$$" =
        some r ∧
      r.legs.map RouteLeg.mode = ["bus"] ∧
      r.legs.map RouteLeg.duration_min = [30] ∧
      r.legs.map RouteLeg.stops = [some 16] ∧
      r.legs.map RouteLeg.fromName = [some "浄土寺"] ∧
      r.legs.map RouteLeg.toName = [some "四条烏丸"] ∧
      r.legs.map RouteLeg.line = [some "市バス203系統"] :=
  ⟨_, rfl, rfl, rfl, rfl, rfl, rfl, rfl⟩

/-- C8: any page whose body text contains
該当する結果が見つかりませんでした parses to zero routes, whatever routes the
two decoders could otherwise extract. -/
theorem parseHtml_noResults_empty (page : RouteHtmlParser.PageModel)
    (h : jsIncludes page.bodyText "該当する結果が見つかりませんでした" = true) :
    RouteHtmlParser.parseHtml page = { routes := [], truncated := false } := by
  have hmsg : RouteHtmlParser.hasErrorMessage page.bodyText = true := by
    simp [RouteHtmlParser.hasErrorMessage, RouteHtmlParser.noResultPhrases, h]
  simp [RouteHtmlParser.parseHtml, hmsg]

/-- Witness for `parseHtml_noResults_empty`: a page carrying the phrase plus
a parseable route on both decoder sides still yields zero routes. -/
theorem parseHtml_noResults_empty_witness :
    RouteHtmlParser.parseHtml noResultsSamplePage = { routes := [], truncated := false } ∧
    noResultsSamplePage.htmlRoutes ≠ [] ∧ noResultsSamplePage.rawRoutes ≠ [] :=
  ⟨parseHtml_noResults_empty noResultsSamplePage (by rfl), by simp [noResultsSamplePage], by
    simp [noResultsSamplePage]⟩

/-- C10: when both decoders produce at least one route, the reconciled list
has exactly `min` of the two lengths — positions beyond the shorter list are
dropped. -/
theorem extractRoutes_pairs_min (htmlRoutes rawRoutes : List Route)
    (hh : htmlRoutes ≠ []) (hr : rawRoutes ≠ []) :
    (RouteHtmlParser.extractRoutes htmlRoutes rawRoutes).length =
      min htmlRoutes.length rawRoutes.length := by
  unfold RouteHtmlParser.extractRoutes
  rw [if_pos ⟨List.length_pos.mpr hh, List.length_pos.mpr hr⟩]
  exact List.length_zipWith ..

/-- Witness for `extractRoutes_pairs_min`: two HTML routes and one raw route
reconcile to a single route. -/
theorem extractRoutes_pairs_min_witness :
    (RouteHtmlParser.extractRoutes [sampleBusRoute, sampleBusRoute] [sampleWalkRoute]).length
      = 1 :=
  (extractRoutes_pairs_min [sampleBusRoute, sampleBusRoute] [sampleWalkRoute]
    (by simp) (by simp)).trans (by simp)

/-- The binary-search loop never returns a prefix measuring over budget when
its running best is within budget: `best` is only replaced by prefixes that
pass the `tokens <= maxTokens` test. -/
theorem truncateArrayGo_tokens_le (enc : String → Nat) (array : List Json)
    (maxTokens : Nat) :
    ∀ (fuel left right : Nat) (best : List Json),
      TokenLimiter.calculateTokens enc (.arr best) ≤ maxTokens →
      TokenLimiter.calculateTokens enc
        (.arr (TokenLimiter.truncateArrayGo enc array maxTokens fuel left right best)) ≤
        maxTokens := by
  intro fuel
  induction fuel with
  | zero =>
    intro left right best h
    simpa [TokenLimiter.truncateArrayGo] using h
  | succ n ih =>
    intro left right best h
    rw [TokenLimiter.truncateArrayGo]
    dsimp only
    split_ifs with h1 h2
    · exact ih _ _ _ h2
    · exact ih _ _ _ h
    · exact h

/-- C1 (amended): the budget bound holds for top-level arrays — whenever the
empty array and the one-element prefix fit the budget, the truncated array's
token count is at most the budget (for any token counter) — and the
`candidates` scenario holds at the byte tokenizer: the 121-token payload is
truncated to 1 of 5 candidates, 36 ≤ 50 tokens, with `truncated = true`.  The
bound does not extend to object payloads (see the counterexample): each array
field whose empty-array baseline overflows is still admitted as a `key: []`
entry after the budget is already exhausted. -/
theorem truncation_budget_amended :
    (∀ (enc : String → Nat) (array : List Json) (N : Nat),
      TokenLimiter.calculateTokens enc (.arr []) ≤ N →
      TokenLimiter.calculateTokens enc (.arr (array.take 1)) ≤ N →
      TokenLimiter.calculateTokens enc (.arr (TokenLimiter.truncateArray enc array N)) ≤ N) ∧
    50 < TokenLimiter.calculateTokens byteTokens sampleCandidates ∧
    (TokenLimiter.applyLimit byteTokens sampleCandidates 50).truncated = true ∧
    TokenLimiter.calculateTokens byteTokens
      (TokenLimiter.applyLimit byteTokens sampleCandidates 50).data ≤ 50 ∧
    candidatesCount (TokenLimiter.applyLimit byteTokens sampleCandidates 50).data < 5 ∧
    candidatesCount sampleCandidates = 5 := by
  refine ⟨?_, by decide, by decide, by decide, by decide, by decide⟩
  intro enc array N hempty hone
  match array with
  | [] => exact hempty
  | a0 :: rest =>
    rw [TokenLimiter.truncateArray]
    split_ifs with h1 h2
    · exact hempty
    · exact hempty
    · exact truncateArrayGo_tokens_le enc (a0 :: rest) N _ _ _ _ (by simpa using hone)

/-- Counterexample to C1 as stated: every element of `sampleOverObject` fits
budget 16 even wrapped as a one-element array (3 tokens each), the whole
payload measures 43 > 16, and the rebuilt payload still measures 33 > 16 —
the bound fails with no single irreducible element exceeding the budget
alone. -/
theorem truncation_budget_counterexample :
    16 < TokenLimiter.calculateTokens byteTokens sampleOverObject ∧
    ([Json.num 1, Json.num 2, Json.num 3, Json.num 4, Json.num 5, Json.num 6].all
      fun j => decide (TokenLimiter.calculateTokens byteTokens (.arr [j]) ≤ 16)) = true ∧
    (TokenLimiter.applyLimit byteTokens sampleOverObject 16).truncated = true ∧
    16 < TokenLimiter.calculateTokens byteTokens
      (TokenLimiter.applyLimit byteTokens sampleOverObject 16).data := by
  exact ⟨by decide, by decide, by decide, by decide⟩

/-- Witness for `truncation_budget_amended`: the two-number array truncated
under budget 5 measures at most 5 byte tokens. -/
theorem truncation_budget_amended_witness :
    TokenLimiter.calculateTokens byteTokens
      (.arr (TokenLimiter.truncateArray byteTokens [Json.num 7, Json.num 8] 5)) ≤ 5 :=
  truncation_budget_amended.1 byteTokens [Json.num 7, Json.num 8] 5 (by decide) (by decide)

/-- C4 (amended): re-budgeting is the identity when the payload already fits;
when it does not fit but the truncation brings it within budget, the second
application returns the same payload with `truncated = false` while the first
reported `truncated = true` — full equality of the two results fails exactly
there (see the counterexample). -/
theorem applyLimit_idempotent_amended (enc : String → Nat) (x : Json) (N : Nat) :
    (TokenLimiter.calculateTokens enc x ≤ N →
      TokenLimiter.applyLimit enc (TokenLimiter.applyLimit enc x N).data N =
        TokenLimiter.applyLimit enc x N) ∧
    (N < TokenLimiter.calculateTokens enc x →
      TokenLimiter.calculateTokens enc (TokenLimiter.truncateData enc x N) ≤ N →
      (TokenLimiter.applyLimit enc x N).truncated = true ∧
      TokenLimiter.applyLimit enc (TokenLimiter.applyLimit enc x N).data N =
        ⟨(TokenLimiter.applyLimit enc x N).data, false⟩) := by
  constructor
  · intro h
    simp [TokenLimiter.applyLimit, h]
  · intro h1 h2
    rw [TokenLimiter.applyLimit, if_neg (by omega)]
    exact ⟨rfl, by rw [TokenLimiter.applyLimit, if_pos h2]⟩

/-- Counterexample to C4 as stated: budgeting the three-string array once
under budget 15 yields a truncated payload flagged `truncated = true`;
budgeting that payload again yields the same payload flagged
`truncated = false`, so the two results differ. -/
theorem applyLimit_not_idempotent :
    TokenLimiter.applyLimit byteTokens
        (TokenLimiter.applyLimit byteTokens sampleIdemArray 15).data 15 ≠
      TokenLimiter.applyLimit byteTokens sampleIdemArray 15 := by
  intro h
  have h2 := congrArg TokenLimiter.TokenLimitResult.truncated h
  rw [show (TokenLimiter.applyLimit byteTokens
      (TokenLimiter.applyLimit byteTokens sampleIdemArray 15).data 15).truncated = false
      from rfl,
    show (TokenLimiter.applyLimit byteTokens sampleIdemArray 15).truncated = true from rfl]
    at h2
  exact Bool.noConfusion h2

/-- Witness for `applyLimit_idempotent_amended`: both branches at concrete
inputs — a fitting payload is a fixed point, and the truncated three-string
array re-budgets to itself with `truncated = false`. -/
theorem applyLimit_idempotent_amended_witness :
    (TokenLimiter.applyLimit byteTokens
        (TokenLimiter.applyLimit byteTokens (Json.num 3) 10).data 10 =
      TokenLimiter.applyLimit byteTokens (Json.num 3) 10) ∧
    (TokenLimiter.applyLimit byteTokens sampleIdemArray 15).truncated = true ∧
    TokenLimiter.applyLimit byteTokens
        (TokenLimiter.applyLimit byteTokens sampleIdemArray 15).data 15 =
      ⟨(TokenLimiter.applyLimit byteTokens sampleIdemArray 15).data, false⟩ :=
  ⟨(applyLimit_idempotent_amended byteTokens (Json.num 3) 10).1 (by decide),
    (applyLimit_idempotent_amended byteTokens sampleIdemArray 15).2 (by decide) (by decide)⟩

/-- Bytes of a concatenation. -/
theorem byteLen_append (s t : String) : byteLen (s ++ t) = byteLen s + byteLen t := by
  cases s with
  | mk a =>
    cases t with
    | mk b => simp [byteLen, String.instAppend, String.append]

/-- The binary-search loop always returns a prefix of the array when its
running best is one. -/
theorem truncateArrayGo_take (enc : String → Nat) (array : List Json)
    (maxTokens : Nat) :
    ∀ (fuel left right k : Nat),
      ∃ n, TokenLimiter.truncateArrayGo enc array maxTokens fuel left right
        (array.take k) = array.take n := by
  intro fuel
  induction fuel with
  | zero => intro left right k; exact ⟨k, by simp [TokenLimiter.truncateArrayGo]⟩
  | succ m ih =>
    intro left right k
    rw [TokenLimiter.truncateArrayGo]
    dsimp only
    split_ifs with h1 h2
    · exact ih _ _ _
    · exact ih _ _ _
    · exact ⟨k, rfl⟩

/-- `truncateArray` returns a prefix of its input. -/
theorem truncateArray_take (enc : String → Nat) (array : List Json)
    (maxTokens : Nat) :
    ∃ n, TokenLimiter.truncateArray enc array maxTokens = array.take n := by
  match array with
  | [] => exact ⟨0, rfl⟩
  | a0 :: rest =>
    rw [TokenLimiter.truncateArray]
    split_ifs with h1 h2
    · exact ⟨0, rfl⟩
    · exact ⟨0, rfl⟩
    · simpa using truncateArrayGo_take enc (a0 :: rest) maxTokens
        ((a0 :: rest).length + 1) 1 (a0 :: rest).length 1

/-- Byte length of a serialized element list, head/tail form. -/
theorem byteLen_stringifyList_cons (x : Json) (xs : List Json) :
    byteLen (Json.stringifyList (x :: xs)) =
      byteLen (Json.stringify x) +
        (match xs with | [] => 0 | _ :: _ => 1 + byteLen (Json.stringifyList xs)) := by
  cases xs with
  | nil => simp [Json.stringifyList]
  | cons y ys =>
    show byteLen (Json.stringify x ++ "," ++ Json.stringifyList (y :: ys)) =
      byteLen (Json.stringify x) + (1 + byteLen (Json.stringifyList (y :: ys)))
    rw [byteLen_append, byteLen_append]
    have h1 : byteLen "," = 1 := by decide
    omega

/-- Taking a prefix of the elements never increases the serialized byte
length of the element list. -/
theorem byteLen_stringifyList_take (xs : List Json) :
    ∀ k, byteLen (Json.stringifyList (xs.take k)) ≤ byteLen (Json.stringifyList xs) := by
  induction xs with
  | nil => intro k; simp
  | cons x ys ih =>
    intro k
    cases k with
    | zero => simp [Json.stringifyList, byteLen]
    | succ j =>
      rw [List.take_succ_cons, byteLen_stringifyList_cons, byteLen_stringifyList_cons]
      cases ys with
      | nil => simp
      | cons z zs =>
        cases j with
        | zero =>
          simp only [List.take_zero]
          omega
        | succ i =>
          rw [List.take_succ_cons]
          dsimp only
          have := ih (i + 1)
          rw [List.take_succ_cons] at this
          omega

/-- Taking a prefix of an array never increases its serialized byte length. -/
theorem byteLen_stringify_arr_take (xs : List Json) (k : Nat) :
    byteLen (Json.stringify (.arr (xs.take k))) ≤ byteLen (Json.stringify (.arr xs)) := by
  show byteLen ("[" ++ Json.stringifyList (xs.take k) ++ "]") ≤
    byteLen ("[" ++ Json.stringifyList xs ++ "]")
  rw [byteLen_append, byteLen_append, byteLen_append, byteLen_append]
  have := byteLen_stringifyList_take xs k
  omega

/-- Byte length of a single serialized field. -/
theorem byteLen_stringifyFields_one (k : String) (v : Json) :
    byteLen (Json.stringifyFields [(k, v)]) =
      byteLen (Json.quote k) + 1 + byteLen (Json.stringify v) := by
  show byteLen (Json.quote k ++ ":" ++ Json.stringify v) = _
  rw [byteLen_append, byteLen_append]
  have h1 : byteLen ":" = 1 := by decide
  omega

/-- Byte length of a serialized field list with at least two fields. -/
theorem byteLen_stringifyFields_cons2 (k : String) (v : Json) (e : String × Json)
    (es : List (String × Json)) :
    byteLen (Json.stringifyFields ((k, v) :: e :: es)) =
      byteLen (Json.quote k) + 1 + byteLen (Json.stringify v) + 1 +
        byteLen (Json.stringifyFields (e :: es)) := by
  show byteLen (Json.quote k ++ ":" ++ Json.stringify v ++ "," ++
      Json.stringifyFields (e :: es)) = _
  rw [byteLen_append, byteLen_append, byteLen_append, byteLen_append]
  have h1 : byteLen ":" = 1 := by decide
  have h2 : byteLen "," = 1 := by decide
  omega

/-- A `SubEntries` sub-object with entries must come from a non-empty
object. -/
theorem SubEntries.ne_nil {e : String × Json} {s l : List (String × Json)}
    (h : SubEntries (e :: s) l) : l ≠ [] := by
  intro hl
  subst hl
  cases h

/-- A `SubEntries` sub-object serializes to at most as many bytes. -/
theorem SubEntries.byteLen_le {s l : List (String × Json)} (h : SubEntries s l) :
    byteLen (Json.stringifyFields s) ≤ byteLen (Json.stringifyFields l) := by
  induction h with
  | nil l => exact Nat.zero_le _
  | skip k v s l hsub ih =>
    cases l with
    | nil =>
      cases hsub
      exact Nat.zero_le _
    | cons e es =>
      rw [byteLen_stringifyFields_cons2]
      omega
  | keep k v' v s l hv hsub ih =>
    cases s with
    | nil =>
      cases l with
      | nil =>
        rw [byteLen_stringifyFields_one, byteLen_stringifyFields_one]
        omega
      | cons f l' =>
        rw [byteLen_stringifyFields_one, byteLen_stringifyFields_cons2]
        omega
    | cons e s' =>
      cases l with
      | nil => exact absurd rfl hsub.ne_nil
      | cons f l' =>
        rw [byteLen_stringifyFields_cons2, byteLen_stringifyFields_cons2]
        omega

/-- The field loop only ever appends entries to its accumulator, and the
appended entries are a `SubEntries` sub-object of the remaining fields: keys
are kept in order, array values are replaced with prefixes, scalars are kept
unchanged, and everything after a failing scalar is dropped. -/
theorem truncateObjectGo_subEntries (enc : String → Nat) (maxTokens : Nat) :
    ∀ (fields result : List (String × Json)),
      ∃ tail, TokenLimiter.truncateObjectGo enc maxTokens result fields =
          result ++ tail ∧ SubEntries tail fields := by
  intro fields
  induction fields with
  | nil =>
    intro result
    exact ⟨[], by simp [TokenLimiter.truncateObjectGo], SubEntries.nil []⟩
  | cons f rest ih =>
    intro result
    obtain ⟨key, value⟩ := f
    have scalar : ∀ v : Json,
        TokenLimiter.truncateObjectGo enc maxTokens result ((key, v) :: rest) =
          (if TokenLimiter.calculateTokens enc (Json.obj (result ++ [(key, v)])) ≤ maxTokens
            then TokenLimiter.truncateObjectGo enc maxTokens (result ++ [(key, v)]) rest
            else result) →
        ∃ tail, TokenLimiter.truncateObjectGo enc maxTokens result ((key, v) :: rest) =
          result ++ tail ∧ SubEntries tail ((key, v) :: rest) := by
      intro v heq
      rw [heq]
      split_ifs with h1
      · obtain ⟨tail, htail, hsub⟩ := ih (result ++ [(key, v)])
        exact ⟨(key, v) :: tail, by rw [htail, List.append_assoc]; rfl,
          SubEntries.keep key v v tail rest le_rfl hsub⟩
      · exact ⟨[], by simp, SubEntries.nil _⟩
    have arrBound : ∀ (elems : List Json) (m : Nat),
        byteLen (Json.stringify (.arr (TokenLimiter.truncateArray enc elems m))) ≤
          byteLen (Json.stringify (.arr elems)) := by
      intro elems m
      obtain ⟨n, hn⟩ := truncateArray_take enc elems m
      rw [hn]
      exact byteLen_stringify_arr_take elems n
    cases value with
    | arr elems =>
      rw [TokenLimiter.truncateObjectGo]
      dsimp only
      split_ifs with h1 h2
      · obtain ⟨tail, htail, hsub⟩ := ih (result ++ [(key, Json.arr [])])
        refine ⟨(key, Json.arr []) :: tail, by rw [htail, List.append_assoc]; rfl, ?_⟩
        exact SubEntries.keep key (Json.arr []) (Json.arr elems) tail rest
          (by simpa using byteLen_stringify_arr_take elems 0) hsub
      · obtain ⟨tail, htail, hsub⟩ := ih (result ++ [(key, Json.arr
          (TokenLimiter.truncateArray enc elems
            (maxTokens - TokenLimiter.calculateTokens enc
              (Json.obj (result ++ [(key, Json.arr [])])))))])
        refine ⟨_ :: tail, by rw [htail, List.append_assoc]; rfl, ?_⟩
        exact SubEntries.keep key _ (Json.arr elems) tail rest (arrBound elems _) hsub
      · obtain ⟨tail, htail, hsub⟩ := ih (result ++ [(key, Json.arr
          (TokenLimiter.truncateArray enc elems
            ((maxTokens - TokenLimiter.calculateTokens enc
              (Json.obj (result ++ [(key, Json.arr [])]))) * 4 / 5)))])
        refine ⟨_ :: tail, by rw [htail, List.append_assoc]; rfl, ?_⟩
        exact SubEntries.keep key _ (Json.arr elems) tail rest (arrBound elems _) hsub
    | null => exact scalar Json.null rfl
    | bool b => exact scalar (Json.bool b) rfl
    | num n => exact scalar (Json.num n) rfl
    | str s2 => exact scalar (Json.str s2) rfl
    | obj fs2 => exact scalar (Json.obj fs2) rfl

/-- Under the byte tokenizer, truncation never increases the serialized token
count: arrays are cut to prefixes and objects to `SubEntries` sub-objects. -/
theorem truncateData_byteTokens_le (x : Json) (N : Nat) :
    TokenLimiter.calculateTokens byteTokens (TokenLimiter.truncateData byteTokens x N) ≤
      TokenLimiter.calculateTokens byteTokens x := by
  cases x with
  | arr xs =>
    show byteLen (Json.stringify (.arr (TokenLimiter.truncateArray byteTokens xs N))) ≤
      byteLen (Json.stringify (.arr xs))
    obtain ⟨n, hn⟩ := truncateArray_take byteTokens xs N
    rw [hn]
    exact byteLen_stringify_arr_take xs n
  | obj fs =>
    obtain ⟨tail, htail, hsub⟩ := truncateObjectGo_subEntries byteTokens N fs []
    show byteLen (Json.stringify (.obj (TokenLimiter.truncateObject byteTokens fs N))) ≤
      byteLen (Json.stringify (.obj fs))
    rw [TokenLimiter.truncateObject, htail, List.nil_append]
    show byteLen ("\x7b" ++ Json.stringifyFields tail ++ "\x7d") ≤
      byteLen ("\x7b" ++ Json.stringifyFields fs ++ "\x7d")
    rw [byteLen_append, byteLen_append, byteLen_append, byteLen_append]
    have := hsub.byteLen_le
    omega
  | null => exact le_rfl
  | bool b => exact le_rfl
  | num n => exact le_rfl
  | str s2 => exact le_rfl

/-- C5 (amended): the budgeter is monotone in its budget whenever the payload
fits the larger budget — there `limit(x, N2)` returns `x` unchanged and
truncation under the smaller budget can only shrink the byte-token count.
Without that proviso monotonicity fails (see the counterexample). -/
theorem applyLimit_monotone_amended (x : Json) (N1 N2 : Nat) (_h12 : N1 < N2)
    (hfit : TokenLimiter.calculateTokens byteTokens x ≤ N2) :
    TokenLimiter.calculateTokens byteTokens
        (TokenLimiter.applyLimit byteTokens x N1).data ≤
      TokenLimiter.calculateTokens byteTokens
        (TokenLimiter.applyLimit byteTokens x N2).data := by
  by_cases h1 : TokenLimiter.calculateTokens byteTokens x ≤ N1
  · rw [TokenLimiter.applyLimit, if_pos h1, TokenLimiter.applyLimit, if_pos hfit]
  · rw [TokenLimiter.applyLimit, if_neg h1, TokenLimiter.applyLimit, if_pos hfit]
    exact truncateData_byteTokens_le x N1

/-- Counterexample to C5 as stated: on `sampleMonoPayload` the budget-15
result serializes to 63 byte tokens while the budget-44 result serializes to
42 — the smaller budget yields the strictly larger payload. -/
theorem applyLimit_not_monotone :
    TokenLimiter.calculateTokens byteTokens
        (TokenLimiter.applyLimit byteTokens sampleMonoPayload 44).data <
      TokenLimiter.calculateTokens byteTokens
        (TokenLimiter.applyLimit byteTokens sampleMonoPayload 15).data := by
  decide

/-- Witness for `applyLimit_monotone_amended`: the three-string array (22
byte tokens) fits budget 30, and its budget-15 truncation measures no more
than its budget-30 result. -/
theorem applyLimit_monotone_amended_witness :
    TokenLimiter.calculateTokens byteTokens
        (TokenLimiter.applyLimit byteTokens
          (.arr [Json.str "walk", Json.str "bus", Json.str "train"]) 15).data ≤
      TokenLimiter.calculateTokens byteTokens
        (TokenLimiter.applyLimit byteTokens
          (.arr [Json.str "walk", Json.str "bus", Json.str "train"]) 30).data :=
  applyLimit_monotone_amended (.arr [Json.str "walk", Json.str "bus", Json.str "train"])
    15 30 (by decide) (by decide)

/-- String concatenation concatenates the character data. -/
theorem stringData_append (a b : String) : (a ++ b).data = a.data ++ b.data := by
  cases a
  cases b
  rfl

/-- Strings with equal character data are equal. -/
theorem strEq_of_data {a b : String} (h : a.data = b.data) : a = b :=
  congrArg String.mk h

/-- `hintConcat` distributes over list concatenation. -/
theorem hintConcat_append (l1 l2 : List RouteHtmlFetcher.StationRanking) :
    RouteHtmlFetcher.hintConcat (l1 ++ l2) =
      RouteHtmlFetcher.hintConcat l1 ++ RouteHtmlFetcher.hintConcat l2 := by
  induction l1 with
  | nil =>
    apply strEq_of_data
    simp [RouteHtmlFetcher.hintConcat, stringData_append]
  | cons e l ih =>
    have h1 : RouteHtmlFetcher.hintConcat ((e :: l) ++ l2) =
        (if e.name ≠ "" then
          e.name ++ "," ++ toString (RouteHtmlFetcher.clampedWalkTime e.len) ++ ","
          else "") ++ RouteHtmlFetcher.hintConcat (l ++ l2) := rfl
    have h2 : RouteHtmlFetcher.hintConcat (e :: l) =
        (if e.name ≠ "" then
          e.name ++ "," ++ toString (RouteHtmlFetcher.clampedWalkTime e.len) ++ ","
          else "") ++ RouteHtmlFetcher.hintConcat l := rfl
    rw [h1, h2, ih]
    apply strEq_of_data
    simp [stringData_append, List.append_assoc]

/-- A pattern is found at the front. -/
theorem startsWithList_self_append (pat b : List Char) :
    startsWithList pat (pat ++ b) = true := by
  induction pat with
  | nil => rfl
  | cons c cs ih => simp [startsWithList, ih]

/-- A pattern occurring anywhere in the text is found by `hasInfixList`. -/
theorem hasInfixList_append (a pat b : List Char) :
    hasInfixList pat (a ++ (pat ++ b)) = true := by
  induction a with
  | nil =>
    rw [List.nil_append]
    cases hpb : pat ++ b with
    | nil =>
      have hp : pat = [] := by
        cases pat with
        | nil => rfl
        | cons c cs => simp at hpb
      rw [hp]
      rfl
    | cons c rest =>
      show (startsWithList pat (c :: rest) || hasInfixList pat rest) = true
      rw [← hpb, startsWithList_self_append]
      rfl
  | cons c cs ih =>
    rw [List.cons_append]
    show (startsWithList pat (c :: (cs ++ (pat ++ b))) ||
      hasInfixList pat (cs ++ (pat ++ b))) = true
    rw [ih, Bool.or_true]

/-- One scan step never increases the nearest-rail distance. -/
theorem scanStation_rMin_le (name ty : String) (lonLat : ℚ × ℚ)
    (st : List RouteHtmlFetcher.StationRanking × RouteHtmlFetcher.StationRanking)
    (p : String × RouteHtmlFetcher.StationInfo) :
    (RouteHtmlFetcher.scanStation name ty lonLat st p).2.len ≤ st.2.len := by
  by_cases h : p.2.ekidiv = "R" ∧ RouteHtmlFetcher.stationLen name ty lonLat p.2 < st.2.len
  · simp only [RouteHtmlFetcher.scanStation]
    rw [if_pos h]
    exact le_of_lt h.2
  · simp only [RouteHtmlFetcher.scanStation]
    rw [if_neg h]

/-- After scanning, the nearest-rail record is at most every rail station's
distance (and at most the initial record's distance). -/
theorem scanStations_foldl_rMin_min (name ty : String) (lonLat : ℚ × ℚ) :
    ∀ (stations : List (String × RouteHtmlFetcher.StationInfo))
      (init : List RouteHtmlFetcher.StationRanking × RouteHtmlFetcher.StationRanking),
      (stations.foldl (RouteHtmlFetcher.scanStation name ty lonLat) init).2.len ≤
        init.2.len ∧
      ∀ p ∈ stations, p.2.ekidiv = "R" →
        (stations.foldl (RouteHtmlFetcher.scanStation name ty lonLat) init).2.len ≤
          RouteHtmlFetcher.stationLen name ty lonLat p.2 := by
  intro stations
  induction stations with
  | nil => intro init; exact ⟨le_rfl, by simp⟩
  | cons q qs ih =>
    intro init
    rw [List.foldl_cons]
    obtain ⟨ihle, ihmem⟩ := ih (RouteHtmlFetcher.scanStation name ty lonLat init q)
    refine ⟨le_trans ihle (scanStation_rMin_le name ty lonLat init q), ?_⟩
    intro p hp hr
    rcases List.mem_cons.mp hp with rfl | hmem
    · refine le_trans ihle ?_
      by_cases h : p.2.ekidiv = "R" ∧
          RouteHtmlFetcher.stationLen name ty lonLat p.2 < init.2.len
      · simp only [RouteHtmlFetcher.scanStation]
        rw [if_pos h]
      · simp only [RouteHtmlFetcher.scanStation]
        rw [if_neg h]
        push_neg at h
        exact h hr
    · exact ihmem p hmem hr

/-- C9: when no rail-type (`ekidiv = "R"`) station made the ranked top-N, the
scanned nearest-rail record — whose distance is minimal among all rail
stations of the table — is appended after the ranked entries, and its name
appears in the hint string returned by `searchNearStations`. -/
theorem searchNearStations_rail_appended
    (lonLat : ℚ × ℚ) (name ty : String) (nearSpotsNumber : Nat)
    (stations : List (String × RouteHtmlFetcher.StationInfo))
    (hnorail : ((RouteHtmlFetcher.scanStations name ty lonLat nearSpotsNumber stations).1.any
        fun r => r.ekidiv = "R") = false)
    (hname :
      (RouteHtmlFetcher.scanStations name ty lonLat nearSpotsNumber stations).2.name ≠ "") :
    RouteHtmlFetcher.rankedWithRail name ty lonLat nearSpotsNumber stations =
      (RouteHtmlFetcher.scanStations name ty lonLat nearSpotsNumber stations).1 ++
        [(RouteHtmlFetcher.scanStations name ty lonLat nearSpotsNumber stations).2] ∧
    RouteHtmlFetcher.searchNearStations lonLat name ty nearSpotsNumber stations =
      RouteHtmlFetcher.hintConcat
          (RouteHtmlFetcher.scanStations name ty lonLat nearSpotsNumber stations).1 ++
        ((RouteHtmlFetcher.scanStations name ty lonLat nearSpotsNumber stations).2.name ++
          "," ++ toString (RouteHtmlFetcher.clampedWalkTime
            (RouteHtmlFetcher.scanStations name ty lonLat nearSpotsNumber stations).2.len)) ∧
    jsIncludes (RouteHtmlFetcher.searchNearStations lonLat name ty nearSpotsNumber stations)
      (RouteHtmlFetcher.scanStations name ty lonLat nearSpotsNumber stations).2.name = true ∧
    ∀ p ∈ stations, p.2.ekidiv = "R" →
      (RouteHtmlFetcher.scanStations name ty lonLat nearSpotsNumber stations).2.len ≤
        RouteHtmlFetcher.stationLen name ty lonLat p.2 := by
  have hcomma : ("," : String).data = [','] := rfl
  have ha : RouteHtmlFetcher.rankedWithRail name ty lonLat nearSpotsNumber stations =
      (RouteHtmlFetcher.scanStations name ty lonLat nearSpotsNumber stations).1 ++
        [(RouteHtmlFetcher.scanStations name ty lonLat nearSpotsNumber stations).2] := by
    simp only [RouteHtmlFetcher.rankedWithRail]
    rw [if_pos ⟨by simp [hnorail], hname⟩]
  have h1 : RouteHtmlFetcher.hintConcat
        [(RouteHtmlFetcher.scanStations name ty lonLat nearSpotsNumber stations).2] =
      ((RouteHtmlFetcher.scanStations name ty lonLat nearSpotsNumber stations).2.name ++
        "," ++ toString (RouteHtmlFetcher.clampedWalkTime
          (RouteHtmlFetcher.scanStations name ty lonLat nearSpotsNumber stations).2.len)) ++
        "," := by
    show (if (RouteHtmlFetcher.scanStations name ty lonLat nearSpotsNumber stations).2.name
          ≠ "" then _ ++ "," ++ _ ++ "," else "") ++ RouteHtmlFetcher.hintConcat [] = _
    rw [if_pos hname]
    apply strEq_of_data
    simp [RouteHtmlFetcher.hintConcat, stringData_append]
  have hb : RouteHtmlFetcher.searchNearStations lonLat name ty nearSpotsNumber stations =
      RouteHtmlFetcher.hintConcat
          (RouteHtmlFetcher.scanStations name ty lonLat nearSpotsNumber stations).1 ++
        ((RouteHtmlFetcher.scanStations name ty lonLat nearSpotsNumber stations).2.name ++
          "," ++ toString (RouteHtmlFetcher.clampedWalkTime
            (RouteHtmlFetcher.scanStations name ty lonLat nearSpotsNumber stations).2.len)) := by
    rw [RouteHtmlFetcher.searchNearStations, ha, hintConcat_append, h1]
    apply strEq_of_data
    rw [jsSliceDropLast]
    show ((RouteHtmlFetcher.hintConcat
        (RouteHtmlFetcher.scanStations name ty lonLat nearSpotsNumber stations).1 ++
        (((RouteHtmlFetcher.scanStations name ty lonLat nearSpotsNumber stations).2.name ++
          "," ++ toString (RouteHtmlFetcher.clampedWalkTime
            (RouteHtmlFetcher.scanStations name ty lonLat nearSpotsNumber
              stations).2.len)) ++ ",")).data).dropLast = _
    rw [stringData_append, stringData_append, hcomma, ← List.append_assoc,
      List.dropLast_concat, ← stringData_append]
  refine ⟨ha, hb, ?_, ?_⟩
  · rw [hb, jsIncludes]
    have hdata : (RouteHtmlFetcher.hintConcat
          (RouteHtmlFetcher.scanStations name ty lonLat nearSpotsNumber stations).1 ++
        ((RouteHtmlFetcher.scanStations name ty lonLat nearSpotsNumber stations).2.name ++
          "," ++ toString (RouteHtmlFetcher.clampedWalkTime
            (RouteHtmlFetcher.scanStations name ty lonLat nearSpotsNumber
              stations).2.len))).data =
        (RouteHtmlFetcher.hintConcat
          (RouteHtmlFetcher.scanStations name ty lonLat nearSpotsNumber stations).1).data ++
        ((RouteHtmlFetcher.scanStations name ty lonLat nearSpotsNumber
            stations).2.name.data ++
          (("," : String).data ++ (toString (RouteHtmlFetcher.clampedWalkTime
            (RouteHtmlFetcher.scanStations name ty lonLat nearSpotsNumber
              stations).2.len)).data)) := by
      simp [stringData_append, List.append_assoc]
    rw [hdata]
    exact hasInfixList_append _ _ _
  · intro p hp hr
    exact (scanStations_foldl_rMin_min name ty lonLat stations _).2 p hp hr

/-- Witness for `searchNearStations_rail_appended`: on the two-stop sample
table with one ranking slot, the bus stop at the query point wins the ranking
and the rail station a hundredth of a degree away still shows up in the hint
string. -/
theorem searchNearStations_rail_appended_witness :
    jsIncludes (RouteHtmlFetcher.searchNearStations (1, 1) "q" "B" 1 sampleStations)
      "RailB" = true := by
  have hscan : RouteHtmlFetcher.scanStations "q" "B" (1, 1) 1 sampleStations =
      ([{ len := 0, name := "BusA", lat := 1, lng := 1, ekidiv := "B", extra := 1 }],
       { len := 1/10000, name := "RailB", lat := 1 + 1/100, lng := 1, ekidiv := "R",
         extra := 1 }) := by
    simp only [RouteHtmlFetcher.scanStations, sampleStations, List.foldl_cons, List.foldl_nil]
    norm_num [RouteHtmlFetcher.scanStation, RouteHtmlFetcher.insertRanked,
      RouteHtmlFetcher.stationLen, RouteHtmlFetcher.emptySlot,
      RouteHtmlFetcher.LAT_LNG_RATIO, RouteHtmlFetcher.jsNumberMaxValue]
    norm_num [show ("BusA" : String) ≠ "" from by decide,
      show ¬(("y" : String) = "q" ∧ ("R" : String) = "B") from by decide,
      show ("x" : String) ≠ "q" from by decide,
      show ("B" : String) ≠ "R" from by decide]
  have hinc := (searchNearStations_rail_appended (1, 1) "q" "B" 1 sampleStations
    (by rw [hscan]; decide) (by rw [hscan]; decide)).2.2.1
  rw [hscan] at hinc
  simpa using hinc
